import Mathlib

/-!
# Verification of the airline labor-strike risk engine

Shallow embedding of the risk engine of `src/app.py`:

* `PyDate`, `toOrdinal`, `parseDate` model Python `datetime.date` values,
  `date.toordinal()` (proleptic Gregorian ordinal) and
  `datetime.strptime(s, "%Y-%m-%d")`.
* `get_airline_risk` models the function of the same name (app.py lines
  84-131); the per-group body is factored into `stepGroup`, whose YELLOW
  logic is `dateChecks` followed by `negotiatingCheck`, exactly mirroring
  the source's statement order.  Python exceptions (a `ValueError` from
  `strptime`) are modelled with `Except String`.
* `validate_date_range` / `run_search` model the date validation performed
  at app.py lines 199-203 before the engine is invoked.
* `safe_alternatives` models the alternatives loop at app.py lines 229-241.

Risk levels are kept as the strings `"GREEN" / "YELLOW" / "RED" / "GREY"`
used by the source, so that claims about level values are claims about the
actual code.
-/

namespace StrikeApp

/-! ## Dates -/

/-- A Python `datetime.date`: a proleptic-Gregorian calendar date. -/
structure PyDate where
  year : Nat
  month : Nat
  day : Nat
deriving DecidableEq, Repr

/-- Gregorian leap-year test, as in Python's `calendar.isleap`. -/
def isLeap (y : Nat) : Bool :=
  (y % 4 == 0 && y % 100 != 0) || y % 400 == 0

/-- Number of days in month `m` of year `y`. -/
def daysInMonth (y m : Nat) : Nat :=
  if m = 2 then (if isLeap y then 29 else 28)
  else if m = 4 ∨ m = 6 ∨ m = 9 ∨ m = 11 then 30
  else 31

/-- Days in year `y` that precede the first day of month `m`. -/
def daysBeforeMonth (y m : Nat) : Nat :=
  (List.range (m - 1)).foldl (fun acc i => acc + daysInMonth y (i + 1)) 0

/-- Python's `date.toordinal()`: day 1 is 0001-01-01. -/
def toOrdinal (d : PyDate) : Nat :=
  365 * (d.year - 1) + (d.year - 1) / 4 - (d.year - 1) / 100 + (d.year - 1) / 400
    + daysBeforeMonth d.year d.month + d.day

/-- `a < b` on dates, via ordinals (Python compares dates this way). -/
def dlt (a b : PyDate) : Bool := decide (toOrdinal a < toOrdinal b)

/-- `a ≤ b` on dates, via ordinals. -/
def dle (a b : PyDate) : Bool := decide (toOrdinal a ≤ toOrdinal b)

/-- Python `(a - b).days`: the signed day difference of two dates. -/
def daysDiff (a b : PyDate) : Int := (toOrdinal a : Int) - (toOrdinal b : Int)

/-- Split a character list at `'-'` separators, accumulating the current
component in `acc` (the field structure of the `"%Y-%m-%d"` format). -/
def splitDash : List Char → List Char → List (List Char)
  | [], acc => [acc.reverse]
  | c :: rest, acc =>
    if c = '-' then acc.reverse :: splitDash rest []
    else splitDash rest (c :: acc)

/-- The numeric value of a list of decimal digit characters. -/
def natOfDigits (l : List Char) : Nat :=
  l.foldl (fun acc c => acc * 10 + (c.toNat - 48)) 0

/-- `datetime.strptime(s, "%Y-%m-%d").date()`.  CPython's `%Y` is exactly
four digits, `%m` and `%d` are one or two digits in range, the whole string
must be consumed; the `datetime` constructor additionally checks the day
against the month length and that the year is at least `MINYEAR = 1`.
Returns `none` where Python raises `ValueError`. -/
def parseDate (s : String) : Option PyDate :=
  match splitDash s.data [] with
  | [ys, ms, ds] =>
    if ys.all Char.isDigit ∧ ms.all Char.isDigit ∧ ds.all Char.isDigit
        ∧ ys.length = 4 ∧ 1 ≤ ms.length ∧ ms.length ≤ 2
        ∧ 1 ≤ ds.length ∧ ds.length ≤ 2
        ∧ 1 ≤ natOfDigits ys ∧ 1 ≤ natOfDigits ms ∧ natOfDigits ms ≤ 12
        ∧ 1 ≤ natOfDigits ds
        ∧ natOfDigits ds ≤ daysInMonth (natOfDigits ys) (natOfDigits ms)
    then some ⟨natOfDigits ys, natOfDigits ms, natOfDigits ds⟩
    else none
  | _ => none

/-! ## Strings -/

/-- Is `needle` a contiguous substring of `hay` (Python's `x in s`)?
Auxiliary version on character lists. -/
def containsSub : List Char → List Char → Bool
  | needle, [] => needle.isEmpty
  | needle, c :: rest => needle.isPrefixOf (c :: rest) || containsSub needle rest

/-- Python's `x in status` substring test. -/
def strContains (hay needle : String) : Bool :=
  containsSub needle.data hay.data

/-- Python's `str.title()` restricted to ASCII cased characters: the first
letter of every alphabetic run is uppercased, the rest lowercased. -/
def titleAux : List Char → Bool → List Char
  | [], _ => []
  | c :: rest, prevAlpha =>
    (if prevAlpha then c.toLower else c.toUpper) :: titleAux rest c.isAlpha

/-- Python's `group.title()`. -/
def pyTitle (s : String) : String := ⟨titleAux s.data false⟩

/-! ## Data model -/

/-- One bargaining group's contract data (a value of the `unions` dict). -/
structure ContractStatus where
  status : String
  expiration_date : String
deriving DecidableEq, Repr

/-- One airline record of `airlines_db.json`: display name plus the
`unions` dict in insertion order. -/
structure AirlineRecord where
  name : String
  unions : List (String × ContractStatus)
deriving DecidableEq, Repr

/-- The airline database: code → record, in insertion order. -/
abbrev DB := List (String × AirlineRecord)

/-- Dict lookup `db.get(code)` (and the `code in db` test). -/
def dbFind (db : DB) (code : String) : Option AirlineRecord :=
  (db.find? (fun p => p.1 = code)).map (fun p => p.2)

/-- `code_to_name.get(code, code)` of app.py line 240. -/
def code_to_name (db : DB) (code : String) : String :=
  match dbFind db code with
  | some r => r.name
  | none => code

/-! ## Messages (the exact strings built by the source) -/

/-- app.py line 89. -/
def noDataMsg : String := "No data available"

/-- app.py line 109. -/
def criticalMsg (group status : String) : String :=
  "🔴 [CRITICAL] " ++ pyTitle group ++ ": " ++ status

/-- app.py line 116. -/
def beforeMsg (group raw : String) : String :=
  "⚠️ [WARNING] " ++ pyTitle group ++ " contract expires BEFORE your trip (" ++ raw ++ ")."

/-- app.py line 119. -/
def duringMsg (group : String) : String :=
  "⚠️ [WARNING] " ++ pyTitle group ++ " contract expires DURING your trip."

/-- app.py line 122. -/
def shortlyMsg (group : String) : String :=
  "⚠️ [CAUTION] " ++ pyTitle group ++ " contract expires shortly after return."

/-- app.py line 126. -/
def negMsg (group : String) : String :=
  "⚠️ [WARNING] " ++ pyTitle group ++ " are currently negotiating."

/-- app.py line 129. -/
def okMsg : String := "✅ Contracts active."

/-- The `ValueError` text raised by `strptime` on a malformed date. -/
def malformedDateMsg (s : String) : String :=
  "time data " ++ s ++ " does not match format %Y-%m-%d"

/-! ## The risk engine -/

/-- The evaluator's running state: `risk_color` and `reasons`. -/
structure RiskState where
  risk_color : String
  reasons : List String
deriving DecidableEq, Repr

/-- app.py lines 97-100: resolve a group's expiry.  `"N/A"` becomes the
sentinel `datetime(2099, 12, 31).date()`; anything else is `strptime`d. -/
def resolveExpiry (s : String) : Option PyDate :=
  if s = "N/A" then some ⟨2099, 12, 31⟩ else parseDate s

/-- The critical-status test of app.py line 107:
`any(x in status for x in ["Strike", "Impasse", "Cooling-off"])`. -/
def criticalHit (status : String) : Bool :=
  ["Strike", "Impasse", "Cooling-off"].any (fun x => strContains status x)

/-- app.py lines 114-122: the three date-window checks (run only while
`risk_color != "RED"`).  `raw` is the raw `expiration_date` string, which
line 116 interpolates into the BEFORE message. -/
def dateChecks (start_date end_date expiry_date : PyDate) (group raw : String)
    (st : RiskState) : RiskState :=
  if dlt expiry_date start_date then
    ⟨"YELLOW", st.reasons ++ [beforeMsg group raw]⟩
  else if dle start_date expiry_date && dle expiry_date end_date then
    ⟨"YELLOW", st.reasons ++ [duringMsg group]⟩
  else if 0 < daysDiff expiry_date end_date ∧ daysDiff expiry_date end_date < 30 then
    ⟨"YELLOW", st.reasons ++ [shortlyMsg group]⟩
  else st

/-- app.py lines 124-126: the Negotiating check, run after the date checks
of the same group. -/
def negotiatingCheck (status group : String) (st : RiskState) : RiskState :=
  if status = "Negotiating" ∧ st.risk_color = "GREEN" then
    ⟨"YELLOW", st.reasons ++ [negMsg group]⟩
  else st

/-- One iteration of the `for group, details in airline_data['unions']`
loop (app.py lines 95-126).  The expiry is resolved (and can raise) before
the status is classified, exactly as in the source. -/
def stepGroup (start_date end_date : PyDate) (group : String) (details : ContractStatus)
    (st : RiskState) : Except String RiskState :=
  match resolveExpiry details.expiration_date with
  | none => Except.error (malformedDateMsg details.expiration_date)
  | some expiry_date =>
    if details.status = "Non-Union" ∨ details.status = "Binding Arbitration" then
      Except.ok st
    else if criticalHit details.status then
      Except.ok ⟨"RED", st.reasons ++ [criticalMsg group details.status]⟩
    else if st.risk_color ≠ "RED" then
      Except.ok (negotiatingCheck details.status group
        (dateChecks start_date end_date expiry_date group details.expiration_date st))
    else
      Except.ok st

/-- The whole group loop: fold `stepGroup` over the `unions` entries,
propagating any raised error. -/
def foldGroups (s e : PyDate) : List (String × ContractStatus) → RiskState →
    Except String RiskState
  | [], st => Except.ok st
  | (g, d) :: rest, st =>
    match stepGroup s e g d st with
    | Except.error err => Except.error err
    | Except.ok st2 => foldGroups s e rest st2

/-- `get_airline_risk(code, start_date, end_date, db)` of app.py lines
84-131.  Returns `(risk_color, reasons)`, or the propagated `ValueError`
text when a group's expiration date fails to parse. -/
def get_airline_risk (code : String) (start_date end_date : PyDate) (db : DB) :
    Except String (String × List String) :=
  match dbFind db code with
  | none => Except.ok ("GREY", [noDataMsg])
  | some airline_data =>
    match foldGroups start_date end_date airline_data.unions ⟨"GREEN", []⟩ with
    | Except.error err => Except.error err
    | Except.ok st =>
      if st.risk_color = "GREEN" then Except.ok (st.risk_color, st.reasons ++ [okMsg])
      else Except.ok (st.risk_color, st.reasons)

/-- The final level of a successful evaluation, `none` on a raised error. -/
def riskLevel (code : String) (s e : PyDate) (db : DB) : Option String :=
  match get_airline_risk code s e db with
  | Except.ok r => some r.1
  | Except.error _ => none

/-- The reasons of a successful evaluation, `[]` on a raised error. -/
def riskReasons (code : String) (s e : PyDate) (db : DB) : List String :=
  match get_airline_risk code s e db with
  | Except.ok r => r.2
  | Except.error _ => []

/-! ## The surrounding analyzer logic -/

/-- app.py lines 199-203: the module accepts the widget's `date_range`
only when it is a pair; a one-date (mid-selection) or empty value is
rejected with `st.stop()`.  Modelled on a list of dates. -/
def validate_date_range (dr : List PyDate) : Option (PyDate × PyDate) :=
  match dr with
  | [s, e] => some (s, e)
  | _ => none

/-- The search flow of app.py lines 197-207: validate the date range, then
evaluate the chosen airline.  `none` means `st.stop()` fired and no risk
result was produced. -/
def run_search (dr : List PyDate) (code : String) (db : DB) :
    Option (Except String (String × List String)) :=
  (validate_date_range dr).map (fun p => get_airline_risk code p.1 p.2 db)

/-- The alternatives loop of app.py lines 229-241: walk the city's code
list in order, skip the chosen code, evaluate each other code, and collect
the display names of those that are exactly GREEN. -/
def safe_alternatives (chosen_code : String) (available_codes : List String)
    (start_date end_date : PyDate) (db : DB) : Except String (List String) :=
  match available_codes with
  | [] => Except.ok []
  | code :: rest =>
    if code = chosen_code then
      safe_alternatives chosen_code rest start_date end_date db
    else
      match get_airline_risk code start_date end_date db with
      | Except.error err => Except.error err
      | Except.ok r =>
        if r.1 = "GREEN" then
          match safe_alternatives chosen_code rest start_date end_date db with
          | Except.error err => Except.error err
          | Except.ok tail => Except.ok (code_to_name db code :: tail)
        else
          safe_alternatives chosen_code rest start_date end_date db

/-- Does this code evaluate to level exactly GREEN? -/
def isGreen (db : DB) (start_date end_date : PyDate) (c : String) : Bool :=
  match get_airline_risk c start_date end_date db with
  | Except.ok r => r.1 == "GREEN"
  | Except.error _ => false

/-- Spec-side description of the alternatives computation (§4.2,
"Alternative suggestion"): the names of the codes in the list, other than
the chosen one, whose evaluated level is exactly GREEN, in list order. -/
def alternativesSpec (chosen_code : String) (available_codes : List String)
    (start_date end_date : PyDate) (db : DB) : List String :=
  (available_codes.filter (fun c =>
      c != chosen_code && isGreen db start_date end_date c)).map (code_to_name db)

end StrikeApp

namespace StrikeApp

/-! ## Helper lemmas about the per-group step -/

theorem dateChecks_cases (s e x : PyDate) (g raw : String) (st : RiskState) :
    dateChecks s e x g raw st = st ∨
      ∃ m, dateChecks s e x g raw st = ⟨"YELLOW", st.reasons ++ [m]⟩ := by
  unfold dateChecks
  split_ifs <;> first
    | exact Or.inl rfl
    | exact Or.inr ⟨_, rfl⟩

theorem negotiatingCheck_cases (status g : String) (st : RiskState) :
    negotiatingCheck status g st = st ∨
      negotiatingCheck status g st = ⟨"YELLOW", st.reasons ++ [negMsg g]⟩ := by
  unfold negotiatingCheck
  split_ifs
  · exact Or.inr rfl
  · exact Or.inl rfl

theorem stepGroup_error_of_none (s e : PyDate) (g : String) (d : ContractStatus)
    (st : RiskState) (h : resolveExpiry d.expiration_date = none) :
    stepGroup s e g d st = Except.error (malformedDateMsg d.expiration_date) := by
  simp only [stepGroup, h]

theorem stepGroup_ok_of_isSome (s e : PyDate) (g : String) (d : ContractStatus)
    (st : RiskState) (h : (resolveExpiry d.expiration_date).isSome = true) :
    ∃ st', stepGroup s e g d st = Except.ok st' := by
  obtain ⟨x, hx⟩ := Option.isSome_iff_exists.mp h
  simp only [stepGroup, hx]
  split_ifs <;> exact ⟨_, rfl⟩

theorem stepGroup_safe (s e : PyDate) (g : String) (d : ContractStatus) (st : RiskState)
    (hs : d.status = "Non-Union" ∨ d.status = "Binding Arbitration")
    (hwf : (resolveExpiry d.expiration_date).isSome = true) :
    stepGroup s e g d st = Except.ok st := by
  obtain ⟨x, hx⟩ := Option.isSome_iff_exists.mp hwf
  simp only [stepGroup, hx]
  rw [if_pos hs]

theorem stepGroup_critical (s e : PyDate) (g : String) (d : ContractStatus) (st : RiskState)
    (hc : criticalHit d.status = true) (x : PyDate)
    (hx : resolveExpiry d.expiration_date = some x) :
    stepGroup s e g d st = Except.ok ⟨"RED", st.reasons ++ [criticalMsg g d.status]⟩ := by
  have hns : ¬ (d.status = "Non-Union" ∨ d.status = "Binding Arbitration") := by
    rintro (h | h) <;> rw [h] at hc <;> exact absurd hc (by decide)
  simp only [stepGroup, hx]
  rw [if_neg hns, if_pos hc]

theorem stepGroup_red_preserved (s e : PyDate) (g : String) (d : ContractStatus)
    (st st' : RiskState) (hred : st.risk_color = "RED")
    (h : stepGroup s e g d st = Except.ok st') : st'.risk_color = "RED" := by
  unfold stepGroup at h
  cases hres : resolveExpiry d.expiration_date <;> rw [hres] at h
  · exact absurd h (by simp)
  · split_ifs at h with h1 h2 h3
    · simp only [Except.ok.injEq] at h; rw [← h]; exact hred
    · simp only [Except.ok.injEq] at h; rw [← h]
    · exact absurd hred h3
    · simp only [Except.ok.injEq] at h; rw [← h]; exact hred

theorem stepGroup_reasons_mono (s e : PyDate) (g : String) (d : ContractStatus)
    (st st' : RiskState) (h : stepGroup s e g d st = Except.ok st') :
    ∃ t, st'.reasons = st.reasons ++ t := by
  unfold stepGroup at h
  cases hres : resolveExpiry d.expiration_date <;> rw [hres] at h
  · exact absurd h (by simp)
  · rename_i x
    split_ifs at h with h1 h2 h3
    · simp only [Except.ok.injEq] at h; exact ⟨[], by rw [← h]; simp⟩
    · simp only [Except.ok.injEq] at h
      exact ⟨[criticalMsg g d.status], by rw [← h]⟩
    · simp only [Except.ok.injEq] at h
      rcases negotiatingCheck_cases d.status g (dateChecks s e x g d.expiration_date st)
          with hnc | hnc <;>
        rcases dateChecks_cases s e x g d.expiration_date st with hdc | ⟨m, hdc⟩
      · exact ⟨[], by rw [← h, hnc, hdc]; simp⟩
      · exact ⟨[m], by rw [← h, hnc, hdc]⟩
      · exact ⟨[negMsg g], by rw [← h, hnc, hdc]⟩
      · exact ⟨[m, negMsg g], by rw [← h, hnc, hdc]; simp⟩
    · simp only [Except.ok.injEq] at h; exact ⟨[], by rw [← h]; simp⟩

/-! ## Helper lemmas about the group loop -/

theorem foldGroups_cons (s e : PyDate) (g : String) (d : ContractStatus)
    (l : List (String × ContractStatus)) (st : RiskState) :
    foldGroups s e ((g, d) :: l) st =
      match stepGroup s e g d st with
      | Except.error err => Except.error err
      | Except.ok st2 => foldGroups s e l st2 := rfl

theorem foldGroups_red_preserved (s e : PyDate) (l : List (String × ContractStatus)) :
    ∀ st st' : RiskState, st.risk_color = "RED" →
      foldGroups s e l st = Except.ok st' → st'.risk_color = "RED" := by
  induction l with
  | nil =>
    intro st st' hred h
    simp only [foldGroups, Except.ok.injEq] at h
    rw [← h]; exact hred
  | cons p rest ih =>
    intro st st' hred h
    obtain ⟨g, d⟩ := p
    unfold foldGroups at h
    cases hst : stepGroup s e g d st <;> rw [hst] at h
    · exact absurd h (by simp)
    · exact ih _ st' (stepGroup_red_preserved s e g d st _ hred hst) h

theorem foldGroups_reasons_mono (s e : PyDate) (l : List (String × ContractStatus)) :
    ∀ st st' : RiskState, foldGroups s e l st = Except.ok st' →
      ∃ t, st'.reasons = st.reasons ++ t := by
  induction l with
  | nil =>
    intro st st' h
    simp only [foldGroups, Except.ok.injEq] at h
    exact ⟨[], by rw [← h]; simp⟩
  | cons p rest ih =>
    intro st st' h
    obtain ⟨g, d⟩ := p
    unfold foldGroups at h
    cases hst : stepGroup s e g d st <;> rw [hst] at h
    · exact absurd h (by simp)
    · rename_i st2
      obtain ⟨t1, ht1⟩ := stepGroup_reasons_mono s e g d st st2 hst
      obtain ⟨t2, ht2⟩ := ih st2 st' h
      exact ⟨t1 ++ t2, by rw [ht2, ht1, List.append_assoc]⟩

theorem foldGroups_ok_of_wf (s e : PyDate) (l : List (String × ContractStatus))
    (hwf : ∀ p ∈ l, (resolveExpiry p.2.expiration_date).isSome = true) :
    ∀ st : RiskState, ∃ st', foldGroups s e l st = Except.ok st' := by
  induction l with
  | nil => intro st; exact ⟨st, rfl⟩
  | cons p rest ih =>
    intro st
    obtain ⟨g, d⟩ := p
    obtain ⟨st2, hst2⟩ := stepGroup_ok_of_isSome s e g d st
      (hwf (g, d) (List.mem_cons_self _ _))
    obtain ⟨st', hst'⟩ := ih (fun q hq => hwf q (List.mem_cons_of_mem _ hq)) st2
    exact ⟨st', by unfold foldGroups; rw [hst2]; exact hst'⟩

theorem foldGroups_error_of_bad (s e : PyDate) (l : List (String × ContractStatus))
    (g : String) (d : ContractStatus) (hmem : (g, d) ∈ l)
    (hbad : resolveExpiry d.expiration_date = none) :
    ∀ st : RiskState, ∃ msg, foldGroups s e l st = Except.error msg := by
  induction l with
  | nil => exact absurd hmem (List.not_mem_nil _)
  | cons p rest ih =>
    intro st
    obtain ⟨g0, d0⟩ := p
    rcases List.mem_cons.mp hmem with heq | htail
    · injection heq with hg hd
      subst hg; subst hd
      refine ⟨malformedDateMsg d.expiration_date, ?_⟩
      unfold foldGroups
      rw [stepGroup_error_of_none s e g d st hbad]
    · cases hst : stepGroup s e g0 d0 st with
      | error msg => exact ⟨msg, by unfold foldGroups; rw [hst]⟩
      | ok st2 =>
        obtain ⟨msg, hmsg⟩ := ih htail st2
        exact ⟨msg, by unfold foldGroups; rw [hst]; exact hmsg⟩

theorem foldGroups_append_ok (s e : PyDate) (l1 l2 : List (String × ContractStatus)) :
    ∀ st st1 : RiskState, foldGroups s e l1 st = Except.ok st1 →
      foldGroups s e (l1 ++ l2) st = foldGroups s e l2 st1 := by
  induction l1 with
  | nil =>
    intro st st1 h
    simp only [foldGroups, Except.ok.injEq] at h
    rw [List.nil_append, h]
  | cons p rest ih =>
    intro st st1 h
    obtain ⟨g, d⟩ := p
    unfold foldGroups at h
    cases hst : stepGroup s e g d st <;> rw [hst] at h
    · exact absurd h (by simp)
    · rename_i st2
      rw [List.cons_append, foldGroups_cons, hst]
      exact ih st2 st1 h

theorem foldGroups_safe (s e : PyDate) (l : List (String × ContractStatus))
    (hsafe : ∀ p ∈ l, p.2.status = "Non-Union" ∨ p.2.status = "Binding Arbitration")
    (hwf : ∀ p ∈ l, (resolveExpiry p.2.expiration_date).isSome = true) :
    ∀ st : RiskState, foldGroups s e l st = Except.ok st := by
  induction l with
  | nil => intro st; rfl
  | cons p rest ih =>
    intro st
    obtain ⟨g, d⟩ := p
    have hstep := stepGroup_safe s e g d st
      (hsafe (g, d) (List.mem_cons_self _ _))
      (hwf (g, d) (List.mem_cons_self _ _))
    unfold foldGroups
    rw [hstep]
    exact ih (fun q hq => hsafe q (List.mem_cons_of_mem _ hq))
      (fun q hq => hwf q (List.mem_cons_of_mem _ hq)) st

end StrikeApp

namespace StrikeApp

/-! ## The level/reasons invariant of the evaluator state -/

/-- Invariant maintained by the group loop: the level is one of the three
severity strings, and once the level has left GREEN the reasons list is
non-empty. -/
def stateInv (st : RiskState) : Prop :=
  (st.risk_color = "GREEN" ∨ st.risk_color = "YELLOW" ∨ st.risk_color = "RED") ∧
    (st.risk_color ≠ "GREEN" → st.reasons ≠ [])

theorem stateInv_yellow_append (l : List String) (m : String) :
    stateInv ⟨"YELLOW", l ++ [m]⟩ := by
  refine ⟨Or.inr (Or.inl rfl), fun _ => ?_⟩
  simp

theorem stepGroup_inv (s e : PyDate) (g : String) (d : ContractStatus)
    (st st' : RiskState) (hinv : stateInv st)
    (h : stepGroup s e g d st = Except.ok st') : stateInv st' := by
  unfold stepGroup at h
  cases hres : resolveExpiry d.expiration_date <;> rw [hres] at h
  · exact absurd h (by simp)
  · rename_i x
    split_ifs at h with h1 h2 h3
    · simp only [Except.ok.injEq] at h; rw [← h]; exact hinv
    · simp only [Except.ok.injEq] at h; rw [← h]
      exact ⟨Or.inr (Or.inr rfl), fun _ => by simp⟩
    · simp only [Except.ok.injEq] at h
      rw [← h]
      rcases negotiatingCheck_cases d.status g (dateChecks s e x g d.expiration_date st)
          with hnc | hnc <;>
        rcases dateChecks_cases s e x g d.expiration_date st with hdc | ⟨m, hdc⟩ <;>
          rw [hnc, hdc]
      · exact hinv
      · exact stateInv_yellow_append _ _
      · exact stateInv_yellow_append _ _
      · exact stateInv_yellow_append _ _
    · simp only [Except.ok.injEq] at h; rw [← h]; exact hinv

theorem foldGroups_inv (s e : PyDate) (l : List (String × ContractStatus)) :
    ∀ st st' : RiskState, stateInv st →
      foldGroups s e l st = Except.ok st' → stateInv st' := by
  induction l with
  | nil =>
    intro st st' hinv h
    simp only [foldGroups, Except.ok.injEq] at h
    rw [← h]; exact hinv
  | cons p rest ih =>
    intro st st' hinv h
    obtain ⟨g, d⟩ := p
    rw [foldGroups_cons] at h
    cases hst : stepGroup s e g d st <;> rw [hst] at h
    · exact absurd h (by simp)
    · exact ih _ st' (stepGroup_inv s e g d st _ hinv hst) h

end StrikeApp

namespace StrikeApp

/-! ## Claim theorems -/

/-- C7: for every airline code absent from the database and every trip
window, `get_airline_risk` returns level GREY with the single no-data
reason, as a normal result (no error), before any group iteration or date
parsing can run. -/
theorem unknown_code_grey (db : DB) (code : String) (s e : PyDate)
    (hfind : dbFind db code = none) :
    get_airline_risk code s e db = Except.ok ("GREY", [noDataMsg]) := by
  simp only [get_airline_risk, hfind]

/-- Witness for C7: the empty database knows no code. -/
theorem unknown_code_grey_witness :
    get_airline_risk "ZZ" ⟨2025, 6, 1⟩ ⟨2025, 6, 10⟩ [] =
      Except.ok ("GREY", [noDataMsg]) :=
  unknown_code_grey [] "ZZ" ⟨2025, 6, 1⟩ ⟨2025, 6, 10⟩ rfl

/-- C8: if a record in the database has some group whose expiration date is
not the `"N/A"` sentinel and fails calendar-date parsing, then for every
trip window `get_airline_risk` propagates an error — it never returns a
GREEN (or any other) normal result for that record. -/
theorem malformed_date_fails_fast (db : DB) (code : String) (rec : AirlineRecord)
    (s e : PyDate) (g : String) (d : ContractStatus)
    (hfind : dbFind db code = some rec)
    (hmem : (g, d) ∈ rec.unions)
    (hna : d.expiration_date ≠ "N/A")
    (hbad : parseDate d.expiration_date = none) :
    ∃ msg, get_airline_risk code s e db = Except.error msg := by
  have hres : resolveExpiry d.expiration_date = none := by
    simp only [resolveExpiry, if_neg hna]
    exact hbad
  obtain ⟨msg, hmsg⟩ :=
    foldGroups_error_of_bad s e rec.unions g d hmem hres ⟨"GREEN", []⟩
  exact ⟨msg, by simp only [get_airline_risk, hfind, hmsg]⟩

/-- Witness for C8: a record whose only group has the unparseable
expiration string `"2025-13-01"`. -/
theorem malformed_date_fails_fast_witness :
    ∃ msg, get_airline_risk "NK" ⟨2025, 6, 1⟩ ⟨2025, 6, 10⟩
        [("NK", ⟨"Spirit Airlines", [("pilots", ⟨"Open", "2025-13-01"⟩)]⟩)] =
      Except.error msg :=
  malformed_date_fails_fast
    [("NK", ⟨"Spirit Airlines", [("pilots", ⟨"Open", "2025-13-01"⟩)]⟩)] "NK"
    ⟨"Spirit Airlines", [("pilots", ⟨"Open", "2025-13-01"⟩)]⟩
    ⟨2025, 6, 1⟩ ⟨2025, 6, 10⟩ "pilots" ⟨"Open", "2025-13-01"⟩
    (by decide) (by decide) (by decide) (by decide)

/-- C1: for a record in the database with all expiration dates well-formed,
if some bargaining group's status string contains `"Strike"`, `"Impasse"`
or `"Cooling-off"` (case-sensitive substring), then for every trip window
the returned level is RED and the reasons include the CRITICAL message
naming that group (title-cased) with its raw status text. -/
theorem critical_status_forces_red (db : DB) (code : String) (rec : AirlineRecord)
    (s e : PyDate) (g : String) (d : ContractStatus)
    (hfind : dbFind db code = some rec)
    (hwf : ∀ p ∈ rec.unions, (resolveExpiry p.2.expiration_date).isSome = true)
    (hmem : (g, d) ∈ rec.unions)
    (hcrit : criticalHit d.status = true) :
    riskLevel code s e db = some "RED" ∧
      criticalMsg g d.status ∈ riskReasons code s e db := by
  obtain ⟨l1, l2, hsplit⟩ := List.append_of_mem hmem
  have hwf1 : ∀ p ∈ l1, (resolveExpiry p.2.expiration_date).isSome = true :=
    fun p hp => hwf p (by rw [hsplit]; exact List.mem_append_left _ hp)
  have hwf2 : ∀ p ∈ l2, (resolveExpiry p.2.expiration_date).isSome = true :=
    fun p hp => hwf p
      (by rw [hsplit]; exact List.mem_append_right _ (List.mem_cons_of_mem _ hp))
  obtain ⟨st1, hst1⟩ := foldGroups_ok_of_wf s e l1 hwf1 ⟨"GREEN", []⟩
  have hres : (resolveExpiry d.expiration_date).isSome = true :=
    hwf (g, d)
      (by rw [hsplit]; exact List.mem_append_right _ (List.mem_cons_self _ _))
  obtain ⟨x, hx⟩ := Option.isSome_iff_exists.mp hres
  have hstep := stepGroup_critical s e g d st1 hcrit x hx
  obtain ⟨st2, hst2⟩ := foldGroups_ok_of_wf s e l2 hwf2
    ⟨"RED", st1.reasons ++ [criticalMsg g d.status]⟩
  have hfold : foldGroups s e rec.unions ⟨"GREEN", []⟩ = Except.ok st2 := by
    rw [hsplit, foldGroups_append_ok s e l1 ((g, d) :: l2) _ st1 hst1,
      foldGroups_cons, hstep]
    exact hst2
  have hred : st2.risk_color = "RED" :=
    foldGroups_red_preserved s e l2 _ st2 rfl hst2
  obtain ⟨t, ht⟩ := foldGroups_reasons_mono s e l2 _ st2 hst2
  have hmsg : criticalMsg g d.status ∈ st2.reasons := by
    rw [ht]
    simp
  have hga : get_airline_risk code s e db = Except.ok (st2.risk_color, st2.reasons) := by
    simp only [get_airline_risk, hfind, hfold]
    rw [if_neg (by rw [hred]; decide)]
  constructor
  · simp only [riskLevel, hga, hred]
  · simp only [riskReasons, hga]
    exact hmsg

/-- The database used to witness C1. -/
def dbCritical : DB :=
  [("AC", ⟨"Air Canada", [("pilots", ⟨"Strike Vote", "2025-01-01"⟩)]⟩)]

/-- Witness for C1: a `"Strike Vote"` status forces RED with the CRITICAL
reason for the pilots group. -/
theorem critical_status_forces_red_witness :
    riskLevel "AC" ⟨2025, 6, 1⟩ ⟨2025, 6, 10⟩ dbCritical = some "RED" ∧
      criticalMsg "pilots" "Strike Vote" ∈
        riskReasons "AC" ⟨2025, 6, 1⟩ ⟨2025, 6, 10⟩ dbCritical :=
  critical_status_forces_red dbCritical "AC"
    ⟨"Air Canada", [("pilots", ⟨"Strike Vote", "2025-01-01"⟩)]⟩
    ⟨2025, 6, 1⟩ ⟨2025, 6, 10⟩ "pilots" ⟨"Strike Vote", "2025-01-01"⟩
    (by decide) (by decide) (by decide) (by decide)

/-- C2: once the group loop has reached RED after some prefix of the
groups, evaluating the remaining groups never changes the level back: the
state after the whole loop is still RED and the evaluator returns level
RED. -/
theorem red_level_monotonic (db : DB) (code : String) (rec : AirlineRecord)
    (s e : PyDate) (l1 l2 : List (String × ContractStatus)) (st1 st' : RiskState)
    (hfind : dbFind db code = some rec)
    (hunions : rec.unions = l1 ++ l2)
    (h1 : foldGroups s e l1 ⟨"GREEN", []⟩ = Except.ok st1)
    (hred : st1.risk_color = "RED")
    (h2 : foldGroups s e rec.unions ⟨"GREEN", []⟩ = Except.ok st') :
    st'.risk_color = "RED" ∧ riskLevel code s e db = some "RED" := by
  have hsplit : foldGroups s e rec.unions ⟨"GREEN", []⟩ = foldGroups s e l2 st1 := by
    rw [hunions]
    exact foldGroups_append_ok s e l1 l2 _ st1 h1
  have hfull : foldGroups s e rec.unions ⟨"GREEN", []⟩ = Except.ok st' := h2
  rw [hsplit] at h2
  have hred' := foldGroups_red_preserved s e l2 st1 st' hred h2
  refine ⟨hred', ?_⟩
  have hga : get_airline_risk code s e db = Except.ok (st'.risk_color, st'.reasons) := by
    simp only [get_airline_risk, hfind, hfull]
    rw [if_neg (by rw [hred']; decide)]
  simp only [riskLevel, hga, hred']

/-- The database used to witness C2. -/
def dbRedMono : DB :=
  [("WS", ⟨"WestJet",
    [("pilots", ⟨"Strike", "N/A"⟩), ("mechanics", ⟨"Open", "2090-01-01"⟩)]⟩)]

/-- Witness for C2: after the pilots group turns the state RED, the
mechanics group leaves it RED and the final level is RED. -/
theorem red_level_monotonic_witness :
    (⟨"RED", [criticalMsg "pilots" "Strike"]⟩ : RiskState).risk_color = "RED" ∧
      riskLevel "WS" ⟨2025, 6, 1⟩ ⟨2025, 6, 10⟩ dbRedMono = some "RED" :=
  red_level_monotonic dbRedMono "WS"
    ⟨"WestJet", [("pilots", ⟨"Strike", "N/A"⟩), ("mechanics", ⟨"Open", "2090-01-01"⟩)]⟩
    ⟨2025, 6, 1⟩ ⟨2025, 6, 10⟩
    [("pilots", ⟨"Strike", "N/A"⟩)] [("mechanics", ⟨"Open", "2090-01-01"⟩)]
    ⟨"RED", [criticalMsg "pilots" "Strike"]⟩
    ⟨"RED", [criticalMsg "pilots" "Strike"]⟩
    rfl rfl rfl rfl rfl

end StrikeApp

namespace StrikeApp

/-- C10: whenever `get_airline_risk` returns a result, the reasons list is
non-empty and the level is one of GREY, GREEN, YELLOW, RED: every level
assignment past the initial GREEN appends a reason, and a final GREEN
appends the OK reason. -/
theorem result_level_and_reasons (db : DB) (code : String) (s e : PyDate)
    (col : String) (rs : List String)
    (h : get_airline_risk code s e db = Except.ok (col, rs)) :
    rs ≠ [] ∧ (col = "GREY" ∨ col = "GREEN" ∨ col = "YELLOW" ∨ col = "RED") := by
  cases hfind : dbFind db code with
  | none =>
    have hga : get_airline_risk code s e db = Except.ok ("GREY", [noDataMsg]) := by
      simp only [get_airline_risk, hfind]
    rw [hga] at h
    simp only [Except.ok.injEq, Prod.mk.injEq] at h
    obtain ⟨h1, h2⟩ := h
    refine ⟨?_, Or.inl h1.symm⟩
    rw [← h2]
    simp
  | some rec =>
    cases hfold : foldGroups s e rec.unions ⟨"GREEN", []⟩ with
    | error err =>
      have hga : get_airline_risk code s e db = Except.error err := by
        simp only [get_airline_risk, hfind, hfold]
      rw [hga] at h
      exact absurd h (by simp)
    | ok st =>
      have hinv : stateInv st := foldGroups_inv s e rec.unions ⟨"GREEN", []⟩ st
        ⟨Or.inl rfl, fun hne => absurd rfl hne⟩ hfold
      by_cases hg : st.risk_color = "GREEN"
      · have hga : get_airline_risk code s e db =
            Except.ok (st.risk_color, st.reasons ++ [okMsg]) := by
          simp only [get_airline_risk, hfind, hfold]
          rw [if_pos hg]
        rw [hga] at h
        simp only [Except.ok.injEq, Prod.mk.injEq] at h
        obtain ⟨h1, h2⟩ := h
        refine ⟨?_, Or.inr (Or.inl (h1 ▸ hg))⟩
        rw [← h2]
        simp
      · have hga : get_airline_risk code s e db =
            Except.ok (st.risk_color, st.reasons) := by
          simp only [get_airline_risk, hfind, hfold]
          rw [if_neg hg]
        rw [hga] at h
        simp only [Except.ok.injEq, Prod.mk.injEq] at h
        obtain ⟨h1, h2⟩ := h
        refine ⟨h2 ▸ hinv.2 hg, ?_⟩
        rcases hinv.1 with hc | hc | hc
        · exact absurd hc hg
        · exact Or.inr (Or.inr (Or.inl (h1 ▸ hc)))
        · exact Or.inr (Or.inr (Or.inr (h1 ▸ hc)))

/-- The database used to witness C10. -/
def dbInvariant : DB :=
  [("DL", ⟨"Delta Air Lines", [("pilots", ⟨"Non-Union", "N/A"⟩)]⟩)]

/-- Witness for C10: a GREEN result has the non-empty reason list
`[okMsg]` and a level among the four strings. -/
theorem result_level_and_reasons_witness :
    [okMsg] ≠ [] ∧
      ("GREEN" = "GREY" ∨ "GREEN" = "GREEN" ∨ "GREEN" = "YELLOW" ∨ "GREEN" = "RED") :=
  result_level_and_reasons dbInvariant "DL" ⟨2025, 6, 1⟩ ⟨2025, 6, 10⟩
    "GREEN" [okMsg] rfl

/-- C9: for a group with status exactly `"Negotiating"` (whose expiry
resolves), the Negotiating check runs after that group's three date-window
checks: if the state entering the group is RED the group changes nothing;
otherwise, when the state after the date checks is still GREEN the step
returns YELLOW with the negotiating WARNING appended, and when it is no
longer GREEN the Negotiating check adds nothing. -/
theorem negotiating_sets_yellow_when_green (s e : PyDate) (g : String)
    (d : ContractStatus) (st : RiskState) (x : PyDate)
    (hstat : d.status = "Negotiating")
    (hres : resolveExpiry d.expiration_date = some x) :
    (st.risk_color = "RED" → stepGroup s e g d st = Except.ok st) ∧
    (st.risk_color ≠ "RED" →
      (dateChecks s e x g d.expiration_date st).risk_color = "GREEN" →
        stepGroup s e g d st =
          Except.ok ⟨"YELLOW",
            (dateChecks s e x g d.expiration_date st).reasons ++ [negMsg g]⟩) ∧
    (st.risk_color ≠ "RED" →
      (dateChecks s e x g d.expiration_date st).risk_color ≠ "GREEN" →
        stepGroup s e g d st = Except.ok (dateChecks s e x g d.expiration_date st)) := by
  have hns : ¬ (d.status = "Non-Union" ∨ d.status = "Binding Arbitration") := by
    rw [hstat]; decide
  have hch : ¬ (criticalHit d.status = true) := by rw [hstat]; decide
  refine ⟨?_, ?_, ?_⟩
  · intro hred
    simp only [stepGroup, hres]
    rw [if_neg hns, if_neg hch, if_neg (fun hn => hn hred)]
  · intro hnr hgreen
    simp only [stepGroup, hres]
    rw [if_neg hns, if_neg hch, if_pos hnr]
    unfold negotiatingCheck
    rw [if_pos ⟨hstat, hgreen⟩]
  · intro hnr hng
    simp only [stepGroup, hres]
    rw [if_neg hns, if_neg hch, if_pos hnr]
    unfold negotiatingCheck
    rw [if_neg (fun hand => hng hand.2)]

/-- Witness for C9 (spec Scenario 3's group): status `"Negotiating"`,
expiry `"N/A"`, trip 2025-06-01..2025-06-10, starting from the initial
GREEN state. -/
theorem negotiating_sets_yellow_when_green_witness :
    ((⟨"GREEN", []⟩ : RiskState).risk_color = "RED" →
      stepGroup ⟨2025, 6, 1⟩ ⟨2025, 6, 10⟩ "pilots" ⟨"Negotiating", "N/A"⟩ ⟨"GREEN", []⟩ =
        Except.ok ⟨"GREEN", []⟩) ∧
    ((⟨"GREEN", []⟩ : RiskState).risk_color ≠ "RED" →
      (dateChecks ⟨2025, 6, 1⟩ ⟨2025, 6, 10⟩ ⟨2099, 12, 31⟩ "pilots" "N/A"
          ⟨"GREEN", []⟩).risk_color = "GREEN" →
        stepGroup ⟨2025, 6, 1⟩ ⟨2025, 6, 10⟩ "pilots" ⟨"Negotiating", "N/A"⟩ ⟨"GREEN", []⟩ =
          Except.ok ⟨"YELLOW",
            (dateChecks ⟨2025, 6, 1⟩ ⟨2025, 6, 10⟩ ⟨2099, 12, 31⟩ "pilots" "N/A"
              ⟨"GREEN", []⟩).reasons ++ [negMsg "pilots"]⟩) ∧
    ((⟨"GREEN", []⟩ : RiskState).risk_color ≠ "RED" →
      (dateChecks ⟨2025, 6, 1⟩ ⟨2025, 6, 10⟩ ⟨2099, 12, 31⟩ "pilots" "N/A"
          ⟨"GREEN", []⟩).risk_color ≠ "GREEN" →
        stepGroup ⟨2025, 6, 1⟩ ⟨2025, 6, 10⟩ "pilots" ⟨"Negotiating", "N/A"⟩ ⟨"GREEN", []⟩ =
          Except.ok (dateChecks ⟨2025, 6, 1⟩ ⟨2025, 6, 10⟩ ⟨2099, 12, 31⟩ "pilots" "N/A"
            ⟨"GREEN", []⟩)) :=
  negotiating_sets_yellow_when_green ⟨2025, 6, 1⟩ ⟨2025, 6, 10⟩ "pilots"
    ⟨"Negotiating", "N/A"⟩ ⟨"GREEN", []⟩ ⟨2099, 12, 31⟩ rfl rfl

/-- The database refuting C5 as stated: its only group is `"Non-Union"`
but carries an unparseable expiration date. -/
def dbSafeBad : DB :=
  [("TS", ⟨"Air Transat", [("pilots", ⟨"Non-Union", "garbage"⟩)]⟩)]

/-- Counterexample to C5 as stated: a record whose every group is
`"Non-Union"` does not always evaluate to GREEN — the expiry is parsed
before the safe-status `continue` (app.py lines 97-104), so a malformed
date raises instead. -/
theorem all_safe_statuses_not_always_green :
    get_airline_risk "TS" ⟨2025, 6, 1⟩ ⟨2025, 6, 10⟩ dbSafeBad =
      Except.error (malformedDateMsg "garbage") := rfl

/-- C5 (amended): for every record whose groups all have status exactly
`"Non-Union"` or `"Binding Arbitration"` *and well-formed expiration
dates*, every trip window evaluates to GREEN with the single OK reason. -/
theorem all_safe_statuses_green (db : DB) (code : String) (rec : AirlineRecord)
    (s e : PyDate)
    (hfind : dbFind db code = some rec)
    (hsafe : ∀ p ∈ rec.unions,
      p.2.status = "Non-Union" ∨ p.2.status = "Binding Arbitration")
    (hwf : ∀ p ∈ rec.unions, (resolveExpiry p.2.expiration_date).isSome = true) :
    get_airline_risk code s e db = Except.ok ("GREEN", [okMsg]) := by
  have hfold := foldGroups_safe s e rec.unions hsafe hwf ⟨"GREEN", []⟩
  simp only [get_airline_risk, hfind, hfold]
  rw [if_pos trivial, List.nil_append]

/-- The database used to witness the amended C5. -/
def dbAllSafe : DB :=
  [("B6", ⟨"JetBlue",
    [("pilots", ⟨"Non-Union", "N/A"⟩),
     ("crew", ⟨"Binding Arbitration", "2026-03-15"⟩)]⟩)]

/-- Witness for the amended C5. -/
theorem all_safe_statuses_green_witness :
    get_airline_risk "B6" ⟨2025, 6, 1⟩ ⟨2025, 6, 10⟩ dbAllSafe =
      Except.ok ("GREEN", [okMsg]) :=
  all_safe_statuses_green dbAllSafe "B6"
    ⟨"JetBlue",
      [("pilots", ⟨"Non-Union", "N/A"⟩),
       ("crew", ⟨"Binding Arbitration", "2026-03-15"⟩)]⟩
    ⟨2025, 6, 1⟩ ⟨2025, 6, 10⟩ rfl (by decide) (by decide)

end StrikeApp

namespace StrikeApp

/-- The database refuting C3 as stated: a single group with an `"N/A"`
expiration date and a status that matches no other rule. -/
def dbSentinel : DB :=
  [("UA", ⟨"United Airlines", [("pilots", ⟨"Open", "N/A"⟩)]⟩)]

/-- Counterexample to C3 as stated: for the valid trip window
2099-12-31..2099-12-31, the `"N/A"` group's resolved sentinel expiry
(2099-12-31) falls inside the window, so the "expires DURING" date branch
fires and the evaluation is a date-based YELLOW. -/
theorem na_group_can_trigger_date_yellow :
    dle ⟨2099, 12, 31⟩ ⟨2099, 12, 31⟩ = true ∧
      get_airline_risk "UA" ⟨2099, 12, 31⟩ ⟨2099, 12, 31⟩ dbSentinel =
        Except.ok ("YELLOW", [duringMsg "pilots"]) := ⟨rfl, rfl⟩

/-- C3 (amended): a group with `expiration_date = "N/A"` never triggers a
date-based YELLOW for any trip window with start ≤ end whose end is on or
before 2099-12-01 (thirty days before the sentinel expiry 2099-12-31):
the expiry resolves to the sentinel and the three date-window checks leave
the state unchanged. -/
theorem na_group_no_date_yellow (s e : PyDate) (g : String) (d : ContractStatus)
    (st : RiskState)
    (hna : d.expiration_date = "N/A")
    (hse : dle s e = true)
    (hend : dle e ⟨2099, 12, 1⟩ = true) :
    resolveExpiry d.expiration_date = some ⟨2099, 12, 31⟩ ∧
      dateChecks s e ⟨2099, 12, 31⟩ g d.expiration_date st = st := by
  have h31 : toOrdinal ⟨2099, 12, 31⟩ = 766644 := by decide
  have h01 : toOrdinal ⟨2099, 12, 1⟩ = 766614 := by decide
  have hs : toOrdinal s ≤ toOrdinal e := by
    unfold dle at hse
    exact of_decide_eq_true hse
  have he : toOrdinal e ≤ 766614 := by
    unfold dle at hend
    rw [h01] at hend
    exact of_decide_eq_true hend
  have c1 : dlt ⟨2099, 12, 31⟩ s = false := by
    unfold dlt
    rw [h31]
    exact decide_eq_false (by omega)
  have c2 : dle ⟨2099, 12, 31⟩ e = false := by
    unfold dle
    rw [h31]
    exact decide_eq_false (by omega)
  have c3 : ¬ (0 < daysDiff ⟨2099, 12, 31⟩ e ∧ daysDiff ⟨2099, 12, 31⟩ e < 30) := by
    unfold daysDiff
    rw [h31]
    omega
  refine ⟨by rw [hna]; rfl, ?_⟩
  unfold dateChecks
  simp [c1, c2, c3]

/-- Witness for the amended C3: an `"N/A"` group and the window
2025-06-01..2025-06-10 leave the GREEN state untouched by the date
checks. -/
theorem na_group_no_date_yellow_witness :
    resolveExpiry (⟨"Open", "N/A"⟩ : ContractStatus).expiration_date =
        some ⟨2099, 12, 31⟩ ∧
      dateChecks ⟨2025, 6, 1⟩ ⟨2025, 6, 10⟩ ⟨2099, 12, 31⟩ "pilots"
        (⟨"Open", "N/A"⟩ : ContractStatus).expiration_date ⟨"GREEN", []⟩ =
          ⟨"GREEN", []⟩ :=
  na_group_no_date_yellow ⟨2025, 6, 1⟩ ⟨2025, 6, 10⟩ "pilots" ⟨"Open", "N/A"⟩
    ⟨"GREEN", []⟩ rfl (by decide) (by decide)

/-- The database used for the C4 counterexample. -/
def dbWindow : DB :=
  [("AS", ⟨"Alaska Airlines", [("pilots", ⟨"Non-Union", "N/A"⟩)]⟩)]

/-- Counterexample to C4 as stated: for the pair 2025-06-10..2025-06-01,
whose end date is strictly earlier than its start date, the search path
does not reject the window — it runs the evaluator and produces a risk
result. -/
theorem inverted_window_still_evaluated :
    dlt ⟨2025, 6, 1⟩ ⟨2025, 6, 10⟩ = true ∧
      run_search [⟨2025, 6, 10⟩, ⟨2025, 6, 1⟩] "AS" dbWindow =
        some (Except.ok ("GREEN", [okMsg])) := ⟨rfl, rfl⟩

/-- C4 (amended): the pre-evaluation validation of the search flow rejects
exactly the date-range inputs that are not two dates; every two-date
window — including one whose end precedes its start — is passed on to the
evaluator and yields a result. -/
theorem date_range_validation_shape (s e : PyDate) (code : String) (db : DB) :
    run_search [s, e] code db = some (get_airline_risk code s e db) ∧
    run_search [] code db = none ∧
    (∀ d : PyDate, run_search [d] code db = none) ∧
    (∀ a b c : PyDate, ∀ l : List PyDate,
      run_search (a :: b :: c :: l) code db = none) :=
  ⟨rfl, rfl, fun _ => rfl, fun _ _ _ _ => rfl⟩

end StrikeApp

namespace StrikeApp

/-- Unfolding equation for one iteration of the alternatives loop. -/
theorem safe_alternatives_cons (chosen code : String) (rest : List String)
    (s e : PyDate) (db : DB) :
    safe_alternatives chosen (code :: rest) s e db =
      if code = chosen then safe_alternatives chosen rest s e db
      else
        match get_airline_risk code s e db with
        | Except.error err => Except.error err
        | Except.ok r =>
          if r.1 = "GREEN" then
            match safe_alternatives chosen rest s e db with
            | Except.error err => Except.error err
            | Except.ok tail => Except.ok (code_to_name db code :: tail)
          else safe_alternatives chosen rest s e db := rfl

/-- C6: when every code in the location's serving list evaluates without a
data error and the chosen airline's evaluated level is RED or YELLOW, the
alternatives loop succeeds and returns exactly the names of the other
codes in the list whose evaluated level is exactly GREEN, in the list's
order, with the chosen code excluded; in particular, when no other code is
GREEN the result is the empty list, not an error. -/
theorem alternatives_are_green_names (db : DB) (chosen : String)
    (codes : List String) (s e : PyDate)
    (hok : ∀ c ∈ codes, (get_airline_risk c s e db).isOk = true)
    (_hchosen : riskLevel chosen s e db = some "RED" ∨
      riskLevel chosen s e db = some "YELLOW") :
    safe_alternatives chosen codes s e db =
      Except.ok (alternativesSpec chosen codes s e db) := by
  clear _hchosen
  induction codes with
  | nil => rfl
  | cons c rest ih =>
    have hok_rest : ∀ x ∈ rest, (get_airline_risk x s e db).isOk = true :=
      fun x hx => hok x (List.mem_cons_of_mem _ hx)
    have hok_c : (get_airline_risk c s e db).isOk = true :=
      hok c (List.mem_cons_self _ _)
    have ih' := ih hok_rest
    by_cases hc : c = chosen
    · subst hc
      rw [safe_alternatives_cons, if_pos rfl, ih']
      congr 1
      unfold alternativesSpec
      rw [List.filter_cons]
      simp
    · cases hga : get_airline_risk c s e db with
      | error err =>
        rw [hga] at hok_c
        exact absurd hok_c (by simp [Except.isOk, Except.toBool])
      | ok r =>
        by_cases hg : r.1 = "GREEN"
        · have hpred : (c != chosen && isGreen db s e c) = true := by
            simp only [isGreen, hga, Bool.and_eq_true, bne_iff_ne, beq_iff_eq]
            exact ⟨hc, hg⟩
          rw [safe_alternatives_cons, if_neg hc]
          simp only [hga]
          rw [if_pos hg, ih']
          show Except.ok (code_to_name db c :: alternativesSpec chosen rest s e db) =
            Except.ok (alternativesSpec chosen (c :: rest) s e db)
          congr 1
          unfold alternativesSpec
          rw [List.filter_cons, if_pos hpred, List.map_cons]
        · have hpred : (c != chosen && isGreen db s e c) = false := by
            simp only [isGreen, hga, beq_iff_eq]
            simp [hg]
          rw [safe_alternatives_cons, if_neg hc]
          simp only [hga]
          rw [if_neg hg, ih']
          congr 1
          unfold alternativesSpec
          rw [List.filter_cons, if_neg (by simp [hpred])]

end StrikeApp

namespace StrikeApp

/-- The database used to witness C6: the chosen AC is RED, DL is GREEN,
UA is YELLOW. -/
def dbAlt : DB :=
  [("AC", ⟨"Air Canada", [("pilots", ⟨"Strike Vote", "N/A"⟩)]⟩),
   ("DL", ⟨"Delta Air Lines", [("pilots", ⟨"Non-Union", "N/A"⟩)]⟩),
   ("UA", ⟨"United Airlines", [("pilots", ⟨"Negotiating", "N/A"⟩)]⟩)]

/-- Witness for C6: with RED-chosen AC and serving list AC, DL, UA the
loop agrees with the filtered-names description. -/
theorem alternatives_are_green_names_witness :
    safe_alternatives "AC" ["AC", "DL", "UA"] ⟨2025, 6, 1⟩ ⟨2025, 6, 10⟩ dbAlt =
      Except.ok
        (alternativesSpec "AC" ["AC", "DL", "UA"] ⟨2025, 6, 1⟩ ⟨2025, 6, 10⟩ dbAlt) :=
  alternatives_are_green_names dbAlt "AC" ["AC", "DL", "UA"]
    ⟨2025, 6, 1⟩ ⟨2025, 6, 10⟩ (by decide) (Or.inl rfl)

end StrikeApp
